import Mathlib

/-!
# Verification of the `scipy.fftpack.realtransforms` dispatch layer

A shallow embedding of `src/scipy/fftpack/realtransforms.py`.

The module under study is a dispatch shim: the public entry points `dct1`,
`dct2`, `dct3` forward to the private dispatcher `_dct`, which validates its
arguments, selects one of six precompiled native kernel handles from the
element type (precision) and the transform variant, optionally swaps the
transform axis with the last axis, invokes the kernel on the last axis, and
swaps back.

The native kernels themselves (`_fftpack.ddct1`, ..., `_fftpack.dct3`) are
not part of the reviewed source; the dispatcher is therefore embedded
parametrically over a kernel semantics `KernelSem`.  The mathematical
content of the unnormalized DCT-II/DCT-III kernels, needed for the
inversion property, is modelled separately from the specification formulas.
-/

open Finset

/-- Element types (numpy dtypes) that the dispatcher distinguishes:
double precision, single precision, a complex dtype (rejected by the
real-valuedness check), and an integer dtype standing for every other
real dtype (rejected by the precision check). -/
inductive DType
  | float64
  | float32
  | int64
  | complex128
deriving DecidableEq, Repr

/-- A multi-dimensional array: an element type, a shape, and the element
data, read at (totalized) multi-indices.  Only the real part of the data
is stored; a complex array never reaches the code that reads data. -/
structure NDArray where
  dtype : DType
  shape : List ℕ
  data : List ℕ → ℝ

/-- `np.isrealobj(tmp)`: true unless the element type is complex. -/
def isrealobj (a : NDArray) : Bool :=
  match a.dtype with
  | .complex128 => false
  | _ => true

/-- A Python value passed as the `normalize` argument: `None`, a string,
or an integer (enough to express the truthiness distinctions the
dispatcher makes). -/
inductive PyVal
  | none
  | str (s : String)
  | int (n : ℤ)
deriving DecidableEq, Repr

/-- Python truthiness of a `PyVal`: `None`, `""` and `0` are falsy. -/
def truthy : PyVal → Bool
  | .none => false
  | .str s => s ≠ ""
  | .int n => n ≠ 0

/-- The six native kernel handles wired in `_dct`:
`_fftpack.ddct1/ddct2/ddct3` (double precision) and
`_fftpack.dct1/dct2/dct3` (single precision). -/
inductive Kernel
  | ddct1
  | ddct2
  | ddct3
  | dct1
  | dct2
  | dct3
deriving DecidableEq, Repr

/-- Errors raised by `_dct`, one constructor per `raise` site:
`TypeError` for non-real input, the unsupported-feature error for a
supplied length, `ValueError` for a bad variant, a bad dtype, and a bad
normalization keyword. -/
inductive DctError
  | typeError
  | notImplemented
  | typeNotUnderstood
  | dtypeNotSupported
  | unknownNormalizeMode
deriving DecidableEq, Repr

/-- The spec's "domain error" class: the three `ValueError` sites. -/
def isDomainError : DctError → Bool
  | .typeNotUnderstood => true
  | .dtypeNotSupported => true
  | .unknownNormalizeMode => true
  | _ => false

/-- An abstract semantics of the native kernels: given a kernel handle,
the transform length `n`, the normalization flag `nm` and the
`overwrite_x` flag, a transformation of one row (the data along the last
axis). -/
def KernelSem : Type :=
  Kernel → ℤ → ℤ → ℤ → List ℝ → List ℝ

/-- Generic success test for `Except` results. -/
def isOkE {ε α : Type} : Except ε α → Bool
  | .ok _ => true
  | .error _ => false

instance {ε α : Type} [DecidableEq ε] [DecidableEq α] :
    DecidableEq (Except ε α) := fun x y =>
  match x, y with
  | .ok a, .ok b =>
    if h : a = b then isTrue (by rw [h]) else isFalse (by simp [h])
  | .error a, .error b =>
    if h : a = b then isTrue (by rw [h]) else isFalse (by simp [h])
  | .ok _, .error _ => isFalse (by simp)
  | .error _, .ok _ => isFalse (by simp)

/-- Python index normalization: a negative index counts from the end. -/
def normAxis (ndim : ℕ) (ax : ℤ) : ℕ :=
  (if ax < 0 then ax + ndim else ax).toNat

/-- `l[ax]` with Python index semantics, totalized with default `0`. -/
def pyGet (l : List ℕ) (ax : ℤ) : ℕ :=
  l.getD (normAxis l.length ax) 0

/-- Swap the entries at positions `i` and `j` of a list. -/
def swapIdx (i j : ℕ) (l : List ℕ) : List ℕ :=
  (l.set i (l.getD j 0)).set j (l.getD i 0)

/-- `np.swapaxes(a, ax1, ax2)`: a value-preserving exchange of two axes.
The element of the result at multi-index `idx` is the element of `a` at
the index with positions `ax1` and `ax2` exchanged. -/
def swapaxes (a : NDArray) (ax1 ax2 : ℤ) : NDArray :=
  { dtype := a.dtype
    shape := swapIdx (normAxis a.shape.length ax1)
      (normAxis a.shape.length ax2) a.shape
    data := fun idx => a.data (swapIdx (normAxis a.shape.length ax1)
      (normAxis a.shape.length ax2) idx) }

/-- The size of the last (innermost) axis. -/
def lastDim (a : NDArray) : ℕ :=
  a.shape.getLastD 0

/-- The row of `a` along the last axis over the leading index `base`. -/
def getRow (a : NDArray) (base : List ℕ) : List ℝ :=
  (List.range (lastDim a)).map fun t => a.data (base ++ [t])

/-- Invoke a row transformation on every row along the last axis;
this is how a native kernel (which always operates on the last axis)
acts on a whole array. -/
def applyLastAxis (f : List ℝ → List ℝ) (a : NDArray) : NDArray :=
  { dtype := a.dtype
    shape := a.shape
    data := fun idx => (f (getRow a idx.dropLast)).getD (idx.getLastD 0) 0 }

/-- Kernel selection, lines 158-177 of `realtransforms.py`: nested tests
on the dtype and then on the variant, each `(precision, variant)` pair
resolved to exactly one handle; unknown variants raise
`ValueError("Type %d not understood")`, other dtypes raise
`ValueError("dtype %s not supported")`. -/
def selKernel (dtype : DType) (type : ℤ) : Except DctError Kernel :=
  if dtype = DType.float64 then
    if type = 1 then .ok .ddct1
    else if type = 2 then .ok .ddct2
    else if type = 3 then .ok .ddct3
    else .error .typeNotUnderstood
  else if dtype = DType.float32 then
    if type = 1 then .ok .dct1
    else if type = 2 then .ok .dct2
    else if type = 3 then .ok .dct3
    else .error .typeNotUnderstood
  else .error .dtypeNotSupported

/-- Normalization handling, lines 179-185: a falsy `normalize` yields the
unnormalized flag `0`; a truthy one must equal the string `"ortho"`
(flag `1`), anything else raises
`ValueError("Unknown normalize mode %s")`. -/
def selNorm (normalize : PyVal) : Except DctError ℤ :=
  if truthy normalize then
    if normalize = PyVal.str ("ortho") then .ok 1
    else .error .unknownNormalizeMode
  else .ok 0

/-- The validation prefix of `_dct`, lines 149-185, in source order:
the real-valuedness check, the rejection of any supplied length `n`,
kernel selection, then normalization handling.  On success it returns
the selected kernel handle and normalization flag. -/
def _dctCheck (x : NDArray) (type : ℤ) (n : Option ℤ) (normalize : PyVal) :
    Except DctError (Kernel × ℤ) :=
  if isrealobj x = false then .error .typeError
  else
    match n with
    | some _ => .error .notImplemented
    | none =>
      match selKernel x.dtype type with
      | .error e => .error e
      | .ok f =>
        match selNorm normalize with
        | .error e => .error e
        | .ok nm => .ok (f, nm)

/-- The dispatcher `_dct`, lines 149-194 of `realtransforms.py`,
parametric in the native kernel semantics `sem`.  After validation the
transform length is `tmp.shape[axis]`; if the axis is the last one the
kernel is invoked directly, otherwise the transform axis is swapped with
the last axis, the kernel invoked, and the axes swapped back. -/
def _dct (sem : KernelSem) (x : NDArray) (type : ℤ) (n : Option ℤ)
    (axis : ℤ) (overwrite_x : ℤ) (normalize : PyVal) :
    Except DctError NDArray :=
  match _dctCheck x type n normalize with
  | .error e => .error e
  | .ok (f, nm) =>
    if axis = -1 ∨ axis = (x.shape.length : ℤ) - 1 then
      .ok (applyLastAxis (sem f (pyGet x.shape axis : ℤ) nm overwrite_x) x)
    else
      .ok (swapaxes (applyLastAxis (sem f (pyGet x.shape axis : ℤ) nm overwrite_x)
        (swapaxes x axis (-1))) axis (-1))

/-- Public entry point `dct1` (line 31): forwards to `_dct` with
variant `1` and the destructive flag unset. -/
def dct1 (sem : KernelSem) (x : NDArray) (n : Option ℤ) (axis : ℤ)
    (norm : PyVal) : Except DctError NDArray :=
  _dct sem x 1 n axis 0 norm

/-- Public entry point `dct2` (line 80): forwards to `_dct` with
variant `2` and the destructive flag unset. -/
def dct2 (sem : KernelSem) (x : NDArray) (n : Option ℤ) (axis : ℤ)
    (norm : PyVal) : Except DctError NDArray :=
  _dct sem x 2 n axis 0 norm

/-- Public entry point `dct3` (line 127): forwards to `_dct` with
variant `3` and the destructive flag unset. -/
def dct3 (sem : KernelSem) (x : NDArray) (n : Option ℤ) (axis : ℤ)
    (norm : PyVal) : Except DctError NDArray :=
  _dct sem x 3 n axis 0 norm

/-- The six logical kernel-table slots: two precisions crossed with the
three variants. -/
def kernelSlots : List (DType × ℤ) :=
  [(DType.float64, 1), (DType.float64, 2), (DType.float64, 3),
   (DType.float32, 1), (DType.float32, 2), (DType.float32, 3)]

/-- The number of kernel-table slots populated with a kernel handle. -/
def populatedCount : ℕ :=
  (kernelSlots.filter fun p => isOkE (selKernel p.1 p.2)).length

/-- A concrete kernel semantics used to instantiate witnesses: the
identity on rows. -/
def semId : KernelSem := fun _ _ _ _ row => row

/-- A kernel semantics that agrees with `semId` in non-destructive mode
but differs when the `overwrite_x` flag is set. -/
def semOw : KernelSem := fun _ _ _ ow row => if ow = 0 then row else []

/-- A concrete one-dimensional double-precision array of length 4. -/
def arrF64 : NDArray :=
  { dtype := DType.float64, shape := [4], data := fun _ => 0 }

/-- A concrete complex-valued array. -/
def arrC : NDArray :=
  { dtype := DType.complex128, shape := [4], data := fun _ => 0 }

/-- A concrete integer-valued array: real-valued, but neither single nor
double precision. -/
def arrI : NDArray :=
  { dtype := DType.int64, shape := [4], data := fun _ => 0 }

/-- A concrete three-dimensional double-precision array of shape
`(2, 2, 3)`. -/
def arr3 : NDArray :=
  { dtype := DType.float64, shape := [2, 2, 3], data := fun _ => 0 }

/-- Modelled from the spec: the unnormalized variant-2 (DCT-II) kernel,
implemented natively by `_fftpack.ddct2`/`_fftpack.dct2`, which is not
part of the reviewed source.  Spec formula:
`y[k] = 2·Σ_{n=0}^{N-1} x[n]·cos(π·k·(2n+1)/(2N))` for `0 ≤ k < N`,
here over exact reals. -/
noncomputable def dct2u (N : ℕ) (x : ℕ → ℝ) : ℕ → ℝ := fun k =>
  2 * ∑ m ∈ Finset.range N,
    x m * Real.cos (Real.pi * k * (2 * m + 1) / (2 * N))

/-- Modelled from the spec: the unnormalized variant-3 (DCT-III) kernel,
implemented natively by `_fftpack.ddct3`/`_fftpack.dct3`, which is not
part of the reviewed source.  Spec formula:
`y[k] = x[0] + 2·Σ_{n=1}^{N-1} x[n]·cos(π·(k+0.5)·n/N)` for `0 ≤ k < N`,
here over exact reals. -/
noncomputable def dct3u (N : ℕ) (x : ℕ → ℝ) : ℕ → ℝ := fun k =>
  x 0 + 2 * ∑ m ∈ Finset.Ico 1 N,
    x m * Real.cos (Real.pi * ((k : ℝ) + 1 / 2) * m / N)

/-! ## Helper lemmas about the validation steps -/

lemma selKernel_error_elim (d : DType) (t : ℤ) (e : DctError)
    (h : selKernel d t = .error e) :
    e = DctError.typeNotUnderstood ∨ e = DctError.dtypeNotSupported := by
  unfold selKernel at h
  split_ifs at h <;> simp_all

lemma selNorm_error_elim (v : PyVal) (e : DctError)
    (h : selNorm v = .error e) : e = DctError.unknownNormalizeMode := by
  unfold selNorm at h
  split_ifs at h
  all_goals simp_all

lemma selNorm_eq_error_iff (v : PyVal) :
    selNorm v = .error DctError.unknownNormalizeMode ↔
      (truthy v = true ∧ v ≠ PyVal.str ("ortho")) := by
  unfold selNorm
  split_ifs with h1 h2 <;> simp_all

lemma selNorm_falsy (v : PyVal) (h : truthy v = false) :
    selNorm v = .ok 0 := by
  unfold selNorm
  simp [h]

lemma dct_error_iff (sem : KernelSem) (x : NDArray) (t : ℤ) (n : Option ℤ)
    (ax ow : ℤ) (v : PyVal) (e : DctError) :
    _dct sem x t n ax ow v = .error e ↔ _dctCheck x t n v = .error e := by
  unfold _dct
  cases h : _dctCheck x t n v with
  | error e' => simp
  | ok p =>
    obtain ⟨f, nm⟩ := p
    dsimp only
    split <;> simp

lemma dctCheck_notImplemented_iff (x : NDArray) (t : ℤ) (n : Option ℤ)
    (v : PyVal) :
    _dctCheck x t n v = .error DctError.notImplemented ↔
      (isrealobj x = true ∧ n.isSome = true) := by
  unfold _dctCheck
  cases hr : isrealobj x with
  | false => simp
  | true =>
    cases n with
    | some k => simp
    | none =>
      simp only [Option.isSome_none]
      cases hk : selKernel x.dtype t with
      | error e =>
        rcases selKernel_error_elim _ _ _ hk with h | h <;> subst h <;> simp
      | ok f =>
        cases hn : selNorm v with
        | error e' =>
          have h := selNorm_error_elim _ _ hn
          subst h
          simp
        | ok nm => simp

lemma dctCheck_unknownNorm_iff (x : NDArray) (t : ℤ) (n : Option ℤ)
    (v : PyVal) :
    _dctCheck x t n v = .error DctError.unknownNormalizeMode ↔
      (isrealobj x = true ∧ n = Option.none ∧
        isOkE (selKernel x.dtype t) = true ∧
        truthy v = true ∧ v ≠ PyVal.str ("ortho")) := by
  unfold _dctCheck
  cases hr : isrealobj x with
  | false => simp
  | true =>
    cases n with
    | some k => simp
    | none =>
      cases hk : selKernel x.dtype t with
      | error e =>
        rcases selKernel_error_elim _ _ _ hk with h | h <;> subst h <;>
          simp [isOkE]
      | ok f =>
        cases hn : selNorm v with
        | error e' =>
          have h := selNorm_error_elim _ _ hn
          subst h
          have h2 := (selNorm_eq_error_iff v).mp hn
          simp [isOkE, h2.1, h2.2]
        | ok nm =>
          have h3 : ¬(truthy v = true ∧ v ≠ PyVal.str ("ortho")) := by
            intro hc
            rw [(selNorm_eq_error_iff v).mpr hc] at hn
            exact Except.noConfusion hn
          simp only [isOkE]
          constructor
          · intro hc
            exact Except.noConfusion hc
          · intro hc
            exact absurd ⟨hc.2.2.2.1, hc.2.2.2.2⟩ h3

/-! ## C1: rejection of a supplied output length -/

/-- C1 (counterexample): supplying an output length *equal* to the
input's size along the transform axis still fails with the
unsupported-feature error, contrary to the claim that such a call does
not fail with it. -/
theorem c1_counterexample :
    pyGet arrF64.shape (-1) = 4 ∧
      dct2 semId arrF64 (Option.some 4) (-1) PyVal.none =
        Except.error DctError.notImplemented := by
  exact ⟨rfl, rfl⟩

/-- C1 (amended): a call fails with the unsupported-feature error if and
only if the input passes the real-valuedness check and an output length
is supplied at all — regardless of whether it equals the input's size
along the transform axis; a call omitting the length never fails with
this error. -/
theorem c1_length_always_rejected (sem : KernelSem) (x : NDArray)
    (t : ℤ) (n : Option ℤ) (ax ow : ℤ) (v : PyVal) :
    _dct sem x t n ax ow v = .error DctError.notImplemented ↔
      (isrealobj x = true ∧ n.isSome = true) := by
  rw [dct_error_iff]
  exact dctCheck_notImplemented_iff x t n v

/-! ## C2: normalization validation -/

/-- C2 (counterexample): the empty string is a supplied normalization
argument different from `"ortho"`, yet the call succeeds (returning the
unnormalized result) instead of failing with a domain error. -/
theorem c2_counterexample :
    truthy (PyVal.str ("")) = false ∧
      dct2 semId arrF64 Option.none (-1) (PyVal.str ("")) =
        dct2 semId arrF64 Option.none (-1) PyVal.none ∧
      isOkE (dct2 semId arrF64 Option.none (-1) (PyVal.str (""))) = true := by
  exact ⟨by decide, rfl, rfl⟩

/-- C2 (amended): the call fails with the unknown-normalization domain
error exactly when the earlier validation steps pass and the supplied
normalization argument is *truthy* and different from the literal
`"ortho"`; a falsy or absent normalization argument yields the
unnormalized path instead. -/
theorem c2_norm_domain_error_iff (sem : KernelSem) (x : NDArray)
    (t : ℤ) (n : Option ℤ) (ax ow : ℤ) (v : PyVal) :
    _dct sem x t n ax ow v = .error DctError.unknownNormalizeMode ↔
      (isrealobj x = true ∧ n = Option.none ∧
        isOkE (selKernel x.dtype t) = true ∧
        truthy v = true ∧ v ≠ PyVal.str ("ortho")) := by
  rw [dct_error_iff]
  exact dctCheck_unknownNorm_iff x t n v

/-! ## C4: complex input is rejected with a type error -/

/-- C4: for complex-valued input every public variant fails with the
type error, for every kernel semantics (so before and independently of
any kernel invocation), and produces no output. -/
theorem c4_complex_type_error (sem : KernelSem) (x : NDArray)
    (n : Option ℤ) (ax : ℤ) (v : PyVal)
    (h : x.dtype = DType.complex128) :
    dct1 sem x n ax v = .error DctError.typeError ∧
    dct2 sem x n ax v = .error DctError.typeError ∧
    dct3 sem x n ax v = .error DctError.typeError := by
  have hr : isrealobj x = false := by
    unfold isrealobj
    rw [h]
  refine ⟨?_, ?_, ?_⟩
  all_goals simp [dct1, dct2, dct3, _dct, _dctCheck, hr]

/-- Witness for C4 at a concrete complex array. -/
theorem c4_complex_type_error_witness :
    arrC.dtype = DType.complex128 ∧
      dct1 semId arrC Option.none (-1) PyVal.none =
        .error DctError.typeError := by
  exact ⟨rfl, (c4_complex_type_error semId arrC Option.none (-1)
    PyVal.none rfl).1⟩

/-! ## C7: all-or-nothing behaviour -/

/-- C7: every call either fully succeeds with a transformed array, or
fails with an error that is determined by validation alone — the same
error results under every kernel semantics, so every error is raised
before any kernel invocation and no partial output exists. -/
theorem c7_all_or_nothing (sem : KernelSem) (x : NDArray) (t : ℤ)
    (n : Option ℤ) (ax ow : ℤ) (v : PyVal) :
    (∃ y, _dct sem x t n ax ow v = .ok y) ∨
    (∃ e, _dct sem x t n ax ow v = .error e ∧
      ∀ sem' : KernelSem, _dct sem' x t n ax ow v = .error e) := by
  unfold _dct
  cases h : _dctCheck x t n v with
  | error e =>
    right
    exact ⟨e, rfl, fun sem' => by simp [_dct, h]⟩
  | ok p =>
    obtain ⟨f, nm⟩ := p
    left
    dsimp only
    split
    · exact ⟨_, rfl⟩
    · exact ⟨_, rfl⟩

/-! ## C9: real but non-float input is rejected with a domain error -/

/-- C9: an input that passes the real-valuedness check but whose element
type is neither double nor single precision (such as an integer array)
fails with the dtype domain error, for every variant, axis and
normalization, when no output length is supplied (a supplied length is
rejected by the earlier length check). -/
theorem c9_dtype_domain_error (sem : KernelSem) (x : NDArray) (t : ℤ)
    (ax ow : ℤ) (v : PyVal) (h1 : isrealobj x = true)
    (h2 : x.dtype ≠ DType.float64) (h3 : x.dtype ≠ DType.float32) :
    _dct sem x t Option.none ax ow v = .error DctError.dtypeNotSupported ∧
      isDomainError DctError.dtypeNotSupported = true := by
  have hk : selKernel x.dtype t = .error .dtypeNotSupported := by
    unfold selKernel
    rw [if_neg h2, if_neg h3]
  exact ⟨by simp [_dct, _dctCheck, h1, hk], rfl⟩

/-- Witness for C9 at a concrete integer array. -/
theorem c9_dtype_domain_error_witness :
    isrealobj arrI = true ∧
      _dct semId arrI 2 Option.none (-1) 0 PyVal.none =
        .error DctError.dtypeNotSupported := by
  exact ⟨by decide, (c9_dtype_domain_error semId arrI 2 (-1) 0 PyVal.none
    (by decide) (by decide) (by decide)).1⟩

/-! ## C10: falsy normalization values are treated as absence -/

/-- C10: a falsy normalization argument (such as the empty string or the
integer `0`) is treated exactly like an absent one — the call behaves as
with `None` and in particular returns unnormalized output rather than
failing; the unknown-normalization domain error is reached only for a
truthy argument different from `"ortho"`. -/
theorem c10_falsy_normalize (sem : KernelSem) (x : NDArray) (t : ℤ)
    (n : Option ℤ) (ax ow : ℤ) (v : PyVal) :
    (truthy v = false →
      _dct sem x t n ax ow v = _dct sem x t n ax ow PyVal.none) ∧
    (_dct sem x t n ax ow v = .error DctError.unknownNormalizeMode →
      truthy v = true ∧ v ≠ PyVal.str ("ortho")) := by
  constructor
  · intro h
    have hv : selNorm v = selNorm PyVal.none := by
      rw [selNorm_falsy _ h]
      rfl
    unfold _dct _dctCheck
    rw [hv]
  · intro h
    have h2 := (dctCheck_unknownNorm_iff x t n v).mp
      ((dct_error_iff sem x t n ax ow v _).mp h)
    exact ⟨h2.2.2.2.1, h2.2.2.2.2⟩

/-- Witness for C10 at the falsy value `0`. -/
theorem c10_falsy_normalize_witness :
    truthy (PyVal.int 0) = false ∧
      _dct semId arrF64 2 Option.none (-1) 0 (PyVal.int 0) =
        _dct semId arrF64 2 Option.none (-1) 0 PyVal.none := by
  exact ⟨by decide, (c10_falsy_normalize semId arrF64 2 Option.none (-1) 0
    (PyVal.int 0)).1 (by decide)⟩

/-! ## C3: axis handling by swap, transform, swap back -/

lemma swapIdx_length (i j : ℕ) (l : List ℕ) :
    (swapIdx i j l).length = l.length := by
  simp [swapIdx]

lemma getD_swapIdx_right (i j : ℕ) (l : List ℕ) (hj : j < l.length) :
    (swapIdx i j l).getD j 0 = l.getD i 0 := by
  unfold swapIdx
  rw [List.getD_eq_getElem?_getD, List.getElem?_set_self (by simpa using hj)]
  rfl

lemma pyGet_swap_last (x : NDArray) (ax : ℤ)
    (h1 : -(x.shape.length : ℤ) ≤ ax) (h2 : ax < (x.shape.length : ℤ)) :
    pyGet (swapaxes x ax (-1)).shape (-1) = pyGet x.shape ax := by
  have hlen : 0 < x.shape.length := by omega
  have hj : normAxis x.shape.length (-1) = x.shape.length - 1 := by
    unfold normAxis
    rw [if_pos (by norm_num : (-1 : ℤ) < 0)]
    omega
  show (swapIdx _ _ x.shape).getD
      (normAxis (swapIdx _ _ x.shape).length (-1)) 0 = _
  rw [swapIdx_length, hj]
  have hj2 : normAxis x.shape.length (-1) = x.shape.length - 1 := hj
  rw [← hj2]
  rw [getD_swapIdx_right _ _ _ (by omega : normAxis x.shape.length (-1) <
    x.shape.length)]
  rfl

lemma _dctCheck_swapaxes (x : NDArray) (a b : ℤ) (t : ℤ) (n : Option ℤ)
    (v : PyVal) :
    _dctCheck (swapaxes x a b) t n v = _dctCheck x t n v := rfl

/-- C3: for a non-last (valid) transform axis, the dispatcher's result
equals swapping the transform axis with the last axis, transforming along
the last axis, and swapping back; for the last axis the kernel is invoked
directly on the sequence. -/
theorem c3_axis_dispatch (sem : KernelSem) (x : NDArray) (t : ℤ)
    (n : Option ℤ) (ow : ℤ) (v : PyVal) (ax : ℤ) :
    (¬(ax = -1 ∨ ax = (x.shape.length : ℤ) - 1) →
      -(x.shape.length : ℤ) ≤ ax → ax < (x.shape.length : ℤ) →
      _dct sem x t n ax ow v =
        Except.map (fun y => swapaxes y ax (-1))
          (_dct sem (swapaxes x ax (-1)) t n (-1) ow v)) ∧
    ((ax = -1 ∨ ax = (x.shape.length : ℤ) - 1) →
      ∀ f nm, _dctCheck x t n v = .ok (f, nm) →
      _dct sem x t n ax ow v =
        .ok (applyLastAxis (sem f (pyGet x.shape ax : ℤ) nm ow) x)) := by
  constructor
  · intro hax h1 h2
    unfold _dct
    rw [_dctCheck_swapaxes]
    cases hc : _dctCheck x t n v with
    | error e => rfl
    | ok p =>
      obtain ⟨f, nm⟩ := p
      dsimp only
      rw [if_neg hax, if_pos (Or.inl rfl), pyGet_swap_last x ax h1 h2]
      rfl
  · intro hax f nm hc
    unfold _dct
    rw [hc]
    dsimp only
    rw [if_pos hax]

/-- Witness for C3: transforming a shape `(2, 2, 3)` array along axis 0
equals swapping axes 0 and 2, transforming along the last axis, and
swapping back; and axis 0 is not the last axis. -/
theorem c3_axis_dispatch_witness :
    (¬((0 : ℤ) = -1 ∨ (0 : ℤ) = (arr3.shape.length : ℤ) - 1)) ∧
      _dct semId arr3 2 Option.none 0 0 PyVal.none =
        Except.map (fun y => swapaxes y 0 (-1))
          (_dct semId (swapaxes arr3 0 (-1)) 2 Option.none (-1) 0
            PyVal.none) := by
  exact ⟨by decide, (c3_axis_dispatch semId arr3 2 Option.none 0
    PyVal.none 0).1 (by decide) (by decide) (by decide)⟩

/-! ## C6: the kernel dispatch table -/

/-- C6 (counterexample): all six logical slots of the kernel table
(2 precisions × 3 variants) are populated with a kernel handle in the
source, not exactly five as claimed. -/
theorem c6_counterexample : populatedCount = 6 ∧ populatedCount ≠ 5 := by
  decide

/-- C6 (amended): the kernel dispatch table has six logical slots
(2 precisions × 3 variants), all six populated; for every slot, selection
is a direct lookup on the `(precision, variant)` pair yielding exactly
one kernel handle, the six handles are pairwise distinct, so there is no
fallback or coercion between precisions. -/
theorem c6_kernel_table :
    kernelSlots.length = 6 ∧
    (kernelSlots.all fun p => isOkE (selKernel p.1 p.2)) = true ∧
    (kernelSlots.map fun p => selKernel p.1 p.2).Nodup := by
  decide

/-! ## C8: non-destructive invocation from the public entry points -/

lemma _dct_sem_agree (sem sem' : KernelSem)
    (h : ∀ k a b r, sem k a b 0 r = sem' k a b 0 r)
    (x : NDArray) (t : ℤ) (n : Option ℤ) (ax : ℤ) (v : PyVal) :
    _dct sem x t n ax 0 v = _dct sem' x t n ax 0 v := by
  unfold _dct
  cases hc : _dctCheck x t n v with
  | error e => rfl
  | ok p =>
    obtain ⟨f, nm⟩ := p
    have hf : sem f (pyGet x.shape ax : ℤ) nm 0 =
        sem' f (pyGet x.shape ax : ℤ) nm 0 :=
      funext fun r => h f (pyGet x.shape ax : ℤ) nm r
    dsimp only
    rw [hf]

/-- C8: every public entry point forwards to the dispatcher with the
destructive flag `overwrite_x` unset (`0`), and the result depends only
on the kernels' non-destructive behaviour: two kernel semantics that
agree whenever the flag is `0` give identical results, so the destructive
mode is never exercised and caller-owned input is never handed to it. -/
theorem c8_nondestructive (sem sem' : KernelSem) (x : NDArray)
    (n : Option ℤ) (ax : ℤ) (v : PyVal)
    (h : ∀ k a b r, sem k a b 0 r = sem' k a b 0 r) :
    dct1 sem x n ax v = _dct sem x 1 n ax 0 v ∧
    dct2 sem x n ax v = _dct sem x 2 n ax 0 v ∧
    dct3 sem x n ax v = _dct sem x 3 n ax 0 v ∧
    dct1 sem x n ax v = dct1 sem' x n ax v ∧
    dct2 sem x n ax v = dct2 sem' x n ax v ∧
    dct3 sem x n ax v = dct3 sem' x n ax v :=
  ⟨rfl, rfl, rfl,
    _dct_sem_agree sem sem' h x 1 n ax v,
    _dct_sem_agree sem sem' h x 2 n ax v,
    _dct_sem_agree sem sem' h x 3 n ax v⟩

/-- Witness for C8: the identity kernels and kernels that misbehave only
in destructive mode give the same result through `dct1`. -/
theorem c8_nondestructive_witness :
    dct1 semId arrF64 Option.none (-1) PyVal.none =
      dct1 semOw arrF64 Option.none (-1) PyVal.none :=
  (c8_nondestructive semId semOw arrF64 Option.none (-1) PyVal.none
    (fun k a b r => by simp [semId, semOw])).2.2.2.1

/-! ## C5: the unnormalized DCT-II / DCT-III inversion identity -/

lemma two_cos_mul_cos (A B : ℝ) :
    2 * (Real.cos A * Real.cos B) = Real.cos (A - B) + Real.cos (A + B) := by
  rw [Real.cos_sub, Real.cos_add]
  ring

lemma dct_sum_cos_int (N : ℕ) (hN : 0 < N) (j : ℤ) (hj0 : 0 < j)
    (hjN : j < 2 * N) :
    ∑ m ∈ Finset.range N, Real.cos (m * (Real.pi * j / N)) =
      if j % 2 = 1 then 1 else 0 := by
  have hNr : (0 : ℝ) < N := by exact_mod_cast hN
  have hjr : (0 : ℝ) < j := by exact_mod_cast hj0
  set θ : ℝ := Real.pi * j / N with hθdef
  have hθpos : 0 < θ := div_pos (mul_pos Real.pi_pos hjr) hNr
  have hθlt : θ < 2 * Real.pi := by
    rw [hθdef, div_lt_iff₀ hNr]
    have hj2 : (j : ℝ) < 2 * N := by exact_mod_cast hjN
    nlinarith [Real.pi_pos]
  have hcos : Real.cos θ ≠ 1 := by
    intro h
    rw [Real.cos_eq_one_iff_of_lt_of_lt (by linarith) (by linarith)] at h
    exact absurd h (ne_of_gt hθpos)
  set z : ℂ := Complex.exp (θ * Complex.I) with hzdef
  have hzre : z.re = Real.cos θ := by
    rw [hzdef]
    exact Complex.exp_ofReal_mul_I_re θ
  have hzim : z.im = Real.sin θ := by
    rw [hzdef]
    exact Complex.exp_ofReal_mul_I_im θ
  have hz1 : z ≠ 1 := by
    intro h
    apply hcos
    rw [← hzre, h, Complex.one_re]
  have hterm : ∀ m : ℕ, Real.cos (m * θ) = (z ^ m).re := by
    intro m
    rw [hzdef, ← Complex.exp_nat_mul, ← Complex.exp_ofReal_mul_I_re ((m : ℝ) * θ)]
    congr 2
    push_cast
    ring
  have hsum : ∑ m ∈ Finset.range N, Real.cos (m * θ) =
      ((z ^ N - 1) / (z - 1)).re := by
    rw [← geom_sum_eq hz1 N, Complex.re_sum]
    exact Finset.sum_congr rfl fun m _ => hterm m
  have hzN : z ^ N = (-1 : ℂ) ^ j := by
    rw [hzdef, ← Complex.exp_nat_mul]
    have hNc : (N : ℂ) ≠ 0 := by
      exact_mod_cast hN.ne'
    have harg : (N : ℂ) * ((θ : ℝ) * Complex.I) =
        (j : ℂ) * ((Real.pi : ℝ) * Complex.I) := by
      have hθc : ((θ : ℝ) : ℂ) = (Real.pi : ℂ) * (j : ℂ) / (N : ℂ) := by
        rw [hθdef]
        push_cast
        ring
      rw [hθc]
      field_simp
      ring
    rw [harg, Complex.exp_int_mul, Complex.exp_pi_mul_I]
  rw [hsum, hzN]
  rcases Int.even_or_odd j with hev | hod
  · have hj2 : ¬(j % 2 = 1) := by
      rcases hev with ⟨a, ha⟩
      omega
    rw [if_neg hj2, hev.neg_one_zpow, sub_self, zero_div, Complex.zero_re]
  · have hj2 : j % 2 = 1 := by
      rcases hod with ⟨a, ha⟩
      omega
    rw [if_pos hj2, hod.neg_one_zpow]
    have hnum : (-1 : ℂ) - 1 = -2 := by norm_num
    rw [hnum, Complex.div_re]
    have hns : Complex.normSq (z - 1) = 2 - 2 * Real.cos θ := by
      rw [Complex.normSq_apply, Complex.sub_re, Complex.sub_im, hzre, hzim,
        Complex.one_re, Complex.one_im]
      nlinarith [Real.sin_sq_add_cos_sq θ]
    have hden : 2 - 2 * Real.cos θ ≠ 0 := by
      intro h
      apply hcos
      linarith
    rw [hns, Complex.sub_re, Complex.sub_im, hzre, hzim, Complex.one_re,
      Complex.one_im]
    have h2re : (-2 : ℂ).re = -2 := by norm_num
    have h2im : (-2 : ℂ).im = 0 := by norm_num
    rw [h2re, h2im]
    field_simp
    ring

lemma dct_orthogonality (N n k : ℕ) (hN : 0 < N) (hn : n < N) (hk : k < N) :
    (∑ m ∈ Finset.range N, Real.cos (m * (Real.pi * ((n : ℝ) - k) / N))) +
      (∑ m ∈ Finset.range N,
        Real.cos (m * (Real.pi * ((n : ℝ) + k + 1) / N))) - 1 =
      if n = k then (N : ℝ) else 0 := by
  have hsum2 : ∑ m ∈ Finset.range N,
      Real.cos (m * (Real.pi * ((n : ℝ) + k + 1) / N)) =
      if ((n : ℤ) + k + 1) % 2 = 1 then 1 else 0 := by
    have hcast : ((n : ℝ) + k + 1) = (((n : ℤ) + k + 1 : ℤ) : ℝ) := by
      push_cast
      ring
    rw [hcast]
    exact dct_sum_cos_int N hN ((n : ℤ) + k + 1) (by omega) (by omega)
  by_cases hnk : n = k
  · subst hnk
    rw [if_pos rfl]
    have hzero : ∑ m ∈ Finset.range N,
        Real.cos (m * (Real.pi * ((n : ℝ) - n) / N)) = N := by
      have hone : ∀ m ∈ Finset.range N,
          Real.cos ((m : ℝ) * (Real.pi * ((n : ℝ) - n) / N)) = 1 := by
        intro m _
        rw [sub_self]
        norm_num
      rw [Finset.sum_congr rfl hone]
      simp
    rw [hzero, hsum2, if_pos (by omega)]
    ring
  · rw [if_neg hnk]
    rcases Nat.lt_or_ge n k with hlt | hge
    · have hflip : ∑ m ∈ Finset.range N,
          Real.cos (m * (Real.pi * ((n : ℝ) - k) / N)) =
          ∑ m ∈ Finset.range N,
          Real.cos (m * (Real.pi * ((k : ℝ) - n) / N)) := by
        apply Finset.sum_congr rfl
        intro m _
        rw [show (m : ℝ) * (Real.pi * ((n : ℝ) - k) / N) =
          -((m : ℝ) * (Real.pi * ((k : ℝ) - n) / N)) by ring, Real.cos_neg]
      have hcast : ((k : ℝ) - n) = (((k : ℤ) - n : ℤ) : ℝ) := by
        push_cast
        ring
      rw [hflip, hcast,
        dct_sum_cos_int N hN ((k : ℤ) - n) (by omega) (by omega), hsum2]
      by_cases hp : ((k : ℤ) - n) % 2 = 1
      · rw [if_pos hp, if_neg (by omega)]
        ring
      · rw [if_neg hp, if_pos (by omega)]
        ring
    · have hgt : k < n := by omega
      have hcast : ((n : ℝ) - k) = (((n : ℤ) - k : ℤ) : ℝ) := by
        push_cast
        ring
      rw [hcast, dct_sum_cos_int N hN ((n : ℤ) - k) (by omega) (by omega),
        hsum2]
      by_cases hp : ((n : ℤ) - k) % 2 = 1
      · rw [if_pos hp, if_neg (by omega)]
        ring
      · rw [if_neg hp, if_pos (by omega)]
        ring

/-- C5: over exact reals, applying the unnormalized variant-3 transform
to the unnormalized variant-2 transform of a sequence of length `N`
yields `2N` times the sequence, elementwise (kernels modelled from the
spec formulas; the concrete `x = [0,...,9]`, `N = 10` case is the
`k < N` instance). -/
theorem c5_dct2_dct3_inversion (N : ℕ) (x : ℕ → ℝ) (k : ℕ) (hk : k < N) :
    dct3u N (dct2u N x) k = 2 * N * x k := by
  have hN : 0 < N := by omega
  have hsplit : ∀ g : ℕ → ℝ,
      ∑ m ∈ Finset.range N, g m = g 0 + ∑ m ∈ Finset.Ico 1 N, g m := by
    intro g
    rw [Finset.range_eq_Ico]
    exact Finset.sum_eq_sum_Ico_succ_bot hN g
  have hX0 : dct2u N x 0 = 2 * ∑ n ∈ Finset.range N, x n := by
    unfold dct2u
    congr 1
    apply Finset.sum_congr rfl
    intro m _
    norm_num
  show dct2u N x 0 + 2 * ∑ m ∈ Finset.Ico 1 N,
      dct2u N x m * Real.cos (Real.pi * ((k : ℝ) + 1 / 2) * m / N) =
      2 * N * x k
  rw [hX0]
  have houter : ∀ m ∈ Finset.Ico 1 N,
      dct2u N x m * Real.cos (Real.pi * ((k : ℝ) + 1 / 2) * m / N) =
      ∑ n ∈ Finset.range N, 2 * (x n *
        (Real.cos (Real.pi * m * (2 * n + 1) / (2 * N)) *
         Real.cos (Real.pi * m * (2 * k + 1) / (2 * N)))) := by
    intro m _
    unfold dct2u
    rw [show Real.cos (Real.pi * ((k : ℝ) + 1 / 2) * m / N) =
        Real.cos (Real.pi * m * (2 * k + 1) / (2 * N)) by
      congr 1
      ring]
    rw [mul_assoc, Finset.sum_mul, Finset.mul_sum]
    apply Finset.sum_congr rfl
    intro n _
    ring
  rw [Finset.sum_congr rfl houter, Finset.sum_comm, Finset.mul_sum,
    Finset.mul_sum, ← Finset.sum_add_distrib]
  have hterm : ∀ n ∈ Finset.range N,
      2 * x n + 2 * ∑ m ∈ Finset.Ico 1 N, 2 * (x n *
        (Real.cos (Real.pi * m * (2 * n + 1) / (2 * N)) *
         Real.cos (Real.pi * m * (2 * k + 1) / (2 * N)))) =
      if n = k then 2 * N * x n else 0 := by
    intro n hmem
    have hn : n < N := Finset.mem_range.mp hmem
    have hinner : ∑ m ∈ Finset.Ico 1 N, 2 * (x n *
        (Real.cos (Real.pi * m * (2 * n + 1) / (2 * N)) *
         Real.cos (Real.pi * m * (2 * k + 1) / (2 * N)))) =
        x n * ∑ m ∈ Finset.Ico 1 N,
          (Real.cos ((m : ℝ) * (Real.pi * ((n : ℝ) - k) / N)) +
           Real.cos ((m : ℝ) * (Real.pi * ((n : ℝ) + k + 1) / N))) := by
      rw [Finset.mul_sum]
      apply Finset.sum_congr rfl
      intro m _
      have hpq : 2 * (Real.cos (Real.pi * m * (2 * n + 1) / (2 * N)) *
          Real.cos (Real.pi * m * (2 * k + 1) / (2 * N))) =
          Real.cos ((m : ℝ) * (Real.pi * ((n : ℝ) - k) / N)) +
          Real.cos ((m : ℝ) * (Real.pi * ((n : ℝ) + k + 1) / N)) := by
        rw [two_cos_mul_cos]
        rw [show Real.pi * (m : ℝ) * (2 * (n : ℝ) + 1) / (2 * N) -
            Real.pi * m * (2 * (k : ℝ) + 1) / (2 * N) =
            (m : ℝ) * (Real.pi * ((n : ℝ) - k) / N) by ring]
        rw [show Real.pi * (m : ℝ) * (2 * (n : ℝ) + 1) / (2 * N) +
            Real.pi * m * (2 * (k : ℝ) + 1) / (2 * N) =
            (m : ℝ) * (Real.pi * ((n : ℝ) + k + 1) / N) by ring]
      rw [← hpq]
      ring
    rw [hinner, Finset.sum_add_distrib]
    have hs1 : ∑ m ∈ Finset.range N,
        Real.cos ((m : ℝ) * (Real.pi * ((n : ℝ) - k) / N)) =
        1 + ∑ m ∈ Finset.Ico 1 N,
          Real.cos ((m : ℝ) * (Real.pi * ((n : ℝ) - k) / N)) := by
      rw [hsplit]
      norm_num
    have hs2 : ∑ m ∈ Finset.range N,
        Real.cos ((m : ℝ) * (Real.pi * ((n : ℝ) + k + 1) / N)) =
        1 + ∑ m ∈ Finset.Ico 1 N,
          Real.cos ((m : ℝ) * (Real.pi * ((n : ℝ) + k + 1) / N)) := by
      rw [hsplit]
      norm_num
    have horth := dct_orthogonality N n k hN hn hk
    by_cases hnk : n = k
    · rw [if_pos hnk] at horth ⊢
      linear_combination 2 * x n * horth - 2 * x n * hs1 - 2 * x n * hs2
    · rw [if_neg hnk] at horth ⊢
      linear_combination 2 * x n * horth - 2 * x n * hs1 - 2 * x n * hs2
  rw [Finset.sum_congr rfl hterm, Finset.sum_ite_eq' (Finset.range N) k
    (fun n => 2 * N * x n), if_pos (Finset.mem_range.mpr hk)]

/-- Witness for C5 at `N = 1`, `x = const 3`. -/
theorem c5_dct2_dct3_inversion_witness :
    (0 : ℕ) < 1 ∧
      dct3u 1 (dct2u 1 (fun _ => (3 : ℝ))) 0 = 2 * ((1 : ℕ) : ℝ) * 3 := by
  exact ⟨by decide, c5_dct2_dct3_inversion 1 (fun _ => (3 : ℝ)) 0 (by decide)⟩
